import Mathlib

/-!
Shallow embedding of `scripts/boost_install.py`, a script that downloads a
boost source archive, extracts it and runs the two-stage boost build
(`bootstrap`, `b2`).  Python strings are modelled as Lean `String`s; the
CPython 3.11 implementations of `str.split`, `posixpath.join`,
`posixpath.normpath`, `ntpath.splitdrive`, `ntpath.join` and
`ntpath.normpath` are translated below, since the script's behaviour
depends on them.  External effects (the HTTP fetch, the tar extraction,
the two subprocess invocations) are modelled by an oracle (`World`)
supplying their outcomes, and the control flow of `process` / `main` is
an explicit pipeline over that oracle.
-/

namespace BoostInstall

/-! ### Character-list helpers (Python `str` primitives) -/

/-- Whether the first list is a prefix of the second (Python `startswith`). -/
def isPre : List Char → List Char → Bool
  | [], _ => true
  | _ :: _, [] => false
  | a :: as, b :: bs => a == b && isPre as bs

/-- Python `str.split(sep)` for a one-character separator `c`:
splitting `[]` gives `[[]]`, and each occurrence of `c` starts a new
(possibly empty) component. -/
def splitChar (c : Char) : List Char → List (List Char)
  | [] => [[]]
  | x :: xs =>
    if x = c then [] :: splitChar c xs
    else (x :: (splitChar c xs).headI) :: (splitChar c xs).tail

/-- Python `sep.join(comps)` for a one-character separator. -/
def joinChar (c : Char) : List (List Char) → List Char
  | [] => []
  | [x] => x
  | x :: y :: ys => x ++ c :: joinChar c (y :: ys)

/-- Index of the first occurrence of `c`. -/
def idxOf2 (c : Char) : List Char → Option Nat
  | [] => none
  | x :: xs => if x = c then some 0 else (idxOf2 c xs).map (· + 1)

/-- Python `str.find(c, start)` (as an `Option` instead of `-1`). -/
def findFrom (c : Char) (l : List Char) (start : Nat) : Option Nat :=
  (idxOf2 c (l.drop start)).map (· + start)

/-! ### Python string methods on `String` -/

/-- Python `s.startswith(pre)`. -/
def pyStartsWith (s pre : String) : Bool := isPre pre.data s.data

/-- Python `s.endswith(suf)`. -/
def pyEndsWith (s suf : String) : Bool := isPre suf.data.reverse s.data.reverse

/-- Python `s.replace(a, b)` for one-character `a`, `b`. -/
def pyReplaceChar (a b : Char) (s : String) : String :=
  String.mk (s.data.map fun c => if c = a then b else c)

/-- Python `s.split(c)` for a one-character separator. -/
def pySplit (c : Char) (s : String) : List String :=
  (splitChar c s.data).map String.mk

/-- Python `s.lower()` (ASCII, enough for drive letters). -/
def pyLower (s : String) : String := String.mk (s.data.map Char.toLower)

/-! ### `posixpath` (CPython 3.11) -/

/-- Translation of `posixpath.join(a, b)` (two-argument form). -/
def posixJoin (a b : String) : String :=
  if pyStartsWith b "/" then b
  else if a = "" || pyEndsWith a "/" then a ++ b
  else a ++ "/" ++ b

/-- The component loop of `posixpath.normpath`: skip `''` and `'.'`,
append ordinary components, let `'..'` pop the previous component unless
at an unrooted start or after a kept `'..'`. -/
def posixNormComps (initialSlashes : Nat) : List (List Char) → List (List Char) → List (List Char)
  | acc, [] => acc
  | acc, comp :: rest =>
    if comp = [] ∨ comp = ['.'] then
      posixNormComps initialSlashes acc rest
    else if comp ≠ ['.', '.'] ∨ (initialSlashes = 0 ∧ acc = [])
        ∨ (acc ≠ [] ∧ acc.getLast? = some ['.', '.']) then
      posixNormComps initialSlashes (acc ++ [comp]) rest
    else if acc ≠ [] then
      posixNormComps initialSlashes acc.dropLast rest
    else
      posixNormComps initialSlashes acc rest

/-- Translation of `posixpath.normpath` (CPython 3.11, pure-Python variant). -/
def posixNormpath (p : String) : String :=
  if p = "" then "." else
  let initialSlashes : Nat :=
    if pyStartsWith p "/" then
      if pyStartsWith p "//" && !(pyStartsWith p "///") then 2 else 1
    else 0
  let comps := splitChar '/' p.data
  let newComps := posixNormComps initialSlashes [] comps
  let res := List.replicate initialSlashes '/' ++ joinChar '/' newComps
  if res = [] then "." else String.mk res

/-! ### `ntpath` (CPython 3.11) -/

/-- A Windows path separator (`\` or `/`). -/
def isSep (c : Char) : Bool := c == '\\' || c == '/'

/-- Translation of `ntpath.splitdrive` (CPython 3.11): split off a drive-letter or UNC
drive part. -/
def ntSplitdrive (p : String) : String × String :=
  let l := p.data
  if l.length ≥ 2 then
    let normp := l.map (fun c => if c = '/' then '\\' else c)
    if normp.take 2 = ['\\', '\\'] then
      let start : Nat :=
        if (normp.take 8).map Char.toUpper = "\\\\?\\UNC\\".data.map Char.toUpper
        then 8 else 2
      match findFrom '\\' normp start with
      | none => (p, "")
      | some index =>
        match findFrom '\\' normp (index + 1) with
        | none => (p, "")
        | some index2 => (String.mk (l.take index2), String.mk (l.drop index2))
    else if (normp.drop 1).take 1 = [':'] then
      (String.mk (l.take 2), String.mk (l.drop 2))
    else ("", p)
  else ("", p)

/-- The final `return` of `ntpath.join`: insert a `\` between a UNC
drive and a non-absolute tail. -/
def ntJoinFinish (resultDrive resultPath : String) : String :=
  if resultPath ≠ "" && !(isSep resultPath.data.headI)
      && resultDrive ≠ "" && resultDrive.data.getLastI != ':' then
    resultDrive ++ "\\" ++ resultPath
  else resultDrive ++ resultPath

/-- The relative-append step of `ntpath.join`. -/
def ntRelAppend (resultPath pPath : String) : String :=
  (if resultPath ≠ "" && !(isSep resultPath.data.getLastI)
   then resultPath ++ "\\" else resultPath) ++ pPath

/-- Translation of `ntpath.join(a, b)` (two-argument form, CPython 3.11). -/
def ntJoin (a b : String) : String :=
  let rd := (ntSplitdrive a).1
  let rp := (ntSplitdrive a).2
  let pd := (ntSplitdrive b).1
  let pp := (ntSplitdrive b).2
  if pp ≠ "" && isSep pp.data.headI then
    ntJoinFinish (if pd ≠ "" || rd = "" then pd else rd) pp
  else if pd ≠ "" && pd ≠ rd then
    if pyLower pd ≠ pyLower rd then ntJoinFinish pd pp
    else ntJoinFinish pd (ntRelAppend rp pp)
  else ntJoinFinish rd (ntRelAppend rp pp)

/-- The component loop of `ntpath.normpath`, as an accumulator fold
equivalent to CPython's in-place index loop: drop `''` and `'.'`; `'..'`
cancels a previous non-`'..'` component, disappears at the start of a
rooted path, and is kept otherwise. -/
def ntNormComps (rooted : Bool) : List (List Char) → List (List Char) → List (List Char)
  | acc, [] => acc
  | acc, comp :: rest =>
    if comp = [] ∨ comp = ['.'] then ntNormComps rooted acc rest
    else if comp = ['.', '.'] then
      if acc ≠ [] ∧ acc.getLast? ≠ some ['.', '.'] then
        ntNormComps rooted acc.dropLast rest
      else if acc = [] ∧ rooted then
        ntNormComps rooted acc rest
      else ntNormComps rooted (acc ++ [comp]) rest
    else ntNormComps rooted (acc ++ [comp]) rest

/-- Translation of `ntpath.normpath` (CPython 3.11, pure-Python variant). -/
def ntNormpath (p : String) : String :=
  let replaced := String.mk (p.data.map fun c => if c = '/' then '\\' else c)
  let sd := ntSplitdrive replaced
  let pre := sd.1
  let rest := sd.2
  let pre2 := if pyStartsWith rest "\\" then pre ++ "\\" else pre
  let rest2 :=
    if pyStartsWith rest "\\" then String.mk (rest.data.dropWhile (· = '\\')) else rest
  let comps := splitChar '\\' rest2.data
  let newComps := ntNormComps (pyEndsWith pre2 "\\") [] comps
  let newComps2 := if pre2 = "" ∧ newComps = [] then [['.']] else newComps
  pre2 ++ String.mk (joinChar '\\' newComps2)

/-! ### OS dispatch (`os.name`, `os.path`) -/

/-- The value of Python's `os.name`: `nt` on Windows, `posix` otherwise. -/
inductive OSName where
  | nt
  | posix
  deriving DecidableEq

/-- Dispatch of `os.path.join` on the running OS. -/
def osJoin : OSName → String → String → String
  | .nt => ntJoin
  | .posix => posixJoin

/-- Dispatch of `os.path.normpath` on the running OS. -/
def osNormpath : OSName → String → String
  | .nt => ntNormpath
  | .posix => posixNormpath

/-! ### The script's own functions (`scripts/boost_install.py`) -/

/-- Source line `version_with_dots = args.version + '.0'` (in `metainfo`). -/
def versionWithDots (version : String) : String := version ++ ".0"

/-- Source line `version_with_underscore = version_with_dots.replace('.', '_')`. -/
def versionWithUnderscore (version : String) : String :=
  pyReplaceChar '.' '_' (versionWithDots version)

/-- Source line `archive_name = 'boost_' + version_with_underscore + '.tar.gz'`. -/
def archiveName (version : String) : String :=
  "boost_" ++ versionWithUnderscore version ++ ".tar.gz"

/-- The fixed host template of the download URL in `metainfo`. -/
def urlHost : String := "https://boostorg.jfrog.io/artifactory/main/release/"

/-- The tuple returned by `metainfo`.  `tempDir` is the value of
`tempfile.gettempdir()`, which the embedding takes as an input (it is
read from the environment: `TMPDIR`/`TEMP`/`TMP`, else a platform
default). -/
structure MetaInfo where
  version : String
  tempDir : String
  url : String
  fileName : String
  deriving DecidableEq

/-- Embedding of `metainfo(args)`:
`return version_with_dots, temp_dir, url, file_name`. -/
def metainfo (os : OSName) (version tempDir : String) : MetaInfo :=
  { version := versionWithDots version
    tempDir := tempDir
    url := urlHost ++ versionWithDots version ++ "/source/" ++ archiveName version
    fileName := osJoin os tempDir (archiveName version) }

/-- Embedding of `extract(temp_dir, file_name)`: the returned directory
`os.path.join(temp_dir, file_name.split('.')[0])` (the tar side effect
is part of the `World` oracle in `process`). -/
def extract (os : OSName) (tempDir fileName : String) : String :=
  osJoin os tempDir (pySplit '.' fileName).headI

/-- The platform default assigned to `path` in `get_prefix` when the
user gave none: `r'C:\boost\boost_' + version` on nt,
`'/usr/local/boost_' + version` otherwise. -/
def defaultPath (os : OSName) (version : String) : String :=
  match os with
  | .nt => "C:\\boost\\boost_" ++ version
  | .posix => "/usr/local/boost_" ++ version

/-- Embedding of `get_prefix(path, version)`: `if not path:` install the platform
default (Python's `not` is true for both `None` and `''`), then
`return '--prefix=' + os.path.normpath(path)`. -/
def getPrefixArg (os : OSName) (path : Option String) (version : String) : String :=
  let chosen :=
    match path with
    | none => defaultPath os version
    | some p => if p = "" then defaultPath os version else p
  "--prefix=" ++ osNormpath os chosen

/-- One `subprocess.run` invocation: the argument list, the working
directory, and the `shell=` / `check=` keyword arguments it was given. -/
structure RunCall where
  cmd : List String
  cwd : String
  shell : Bool
  check : Bool
  deriving DecidableEq

/-- Embedding of `bootstrap(prefix_arg, extract_directory)`: command
`['bootstrap.bat', prefix_arg]` on nt, `['./bootstrap.sh', prefix_arg]`
otherwise; always `subprocess.run(cmd, shell=True, cwd=...)`, never
`check=True`. -/
def bootstrapRun (os : OSName) (prefixArg extractDirectory : String) : RunCall :=
  match os with
  | .nt =>
    { cmd := ["bootstrap.bat", prefixArg], cwd := extractDirectory
      shell := true, check := false }
  | .posix =>
    { cmd := ["./bootstrap.sh", prefixArg], cwd := extractDirectory
      shell := true, check := false }

/-- Embedding of `b2(prefix_arg, extract_directory)`: on nt
`['b2.exe', 'install', prefix_arg, '-j 8']` with `shell=True`; otherwise
`['sudo', './b2', 'install', prefix_arg, '-j 8']` with `check=True`. -/
def b2Run (os : OSName) (prefixArg extractDirectory : String) : RunCall :=
  match os with
  | .nt =>
    { cmd := ["b2.exe", "install", prefixArg, "-j 8"], cwd := extractDirectory
      shell := true, check := false }
  | .posix =>
    { cmd := ["sudo", "./b2", "install", prefixArg, "-j 8"], cwd := extractDirectory
      shell := false, check := true }

/-- The exit-status behaviour of `subprocess.run`: it raises
`CalledProcessError` exactly when `check=True` was passed and the child
exited with a nonzero status. -/
def runOutcome (call : RunCall) (exitCode : Nat) : Except String Unit :=
  if call.check ∧ exitCode ≠ 0 then Except.error "CalledProcessError"
  else Except.ok ()

/-- The stages of `process`, in source order. -/
inductive Step where
  | metainfoStep
  | downloadStep
  | extractStep
  | bootstrapStep
  | b2Step
  deriving DecidableEq

/-- Oracle for the external effects: the outcome of the HTTP fetch in
`download`, the outcome of `tarfile.extractall`, and the exit codes of
the two child processes. -/
structure World where
  downloadResult : Except String Unit
  extractResult : Except String Unit
  bootstrapExit : Nat
  b2Exit : Nat

/-- What one run of `process` did: the stages entered, the
`subprocess.run` calls made, and the final outcome (`error` is an
uncaught Python exception propagating out of `process`). -/
structure PipelineResult where
  steps : List Step
  calls : List RunCall
  result : Except String Unit

/-- Embedding of `process(args)`: metainfo, then download, then extract, then
`get_prefix`, then `bootstrap`, then `b2`, each exception aborting the
rest. -/
def process (os : OSName) (w : World) (version : String) (path : Option String)
    (tempDir : String) : PipelineResult :=
  let m := metainfo os version tempDir
  match w.downloadResult with
  | .error e => ⟨[.metainfoStep, .downloadStep], [], .error e⟩
  | .ok _ =>
    match w.extractResult with
    | .error e => ⟨[.metainfoStep, .downloadStep, .extractStep], [], .error e⟩
    | .ok _ =>
      let extractDirectory := extract os tempDir m.fileName
      let prefixArg := getPrefixArg os path m.version
      let bCall := bootstrapRun os prefixArg extractDirectory
      match runOutcome bCall w.bootstrapExit with
      | .error e =>
        ⟨[.metainfoStep, .downloadStep, .extractStep, .bootstrapStep], [bCall], .error e⟩
      | .ok _ =>
        let cCall := b2Run os prefixArg extractDirectory
        match runOutcome cCall w.b2Exit with
        | .error e =>
          ⟨[.metainfoStep, .downloadStep, .extractStep, .bootstrapStep, .b2Step],
            [bCall, cCall], .error e⟩
        | .ok _ =>
          ⟨[.metainfoStep, .downloadStep, .extractStep, .bootstrapStep, .b2Step],
            [bCall, cCall], .ok ()⟩

/-- The `except Exception` handler at the bottom of the script: an
exception escaping `main()` is caught and printed as an `Error:` line;
normal completion prints nothing there. -/
def mainErrorLine (os : OSName) (w : World) (version : String) (path : Option String)
    (tempDir : String) : Option String :=
  match (process os w version path tempDir).result with
  | .error e => some ("Error: " ++ e)
  | .ok _ => none

/-- POSIX semantics of `subprocess.run(cmd, shell=True)` with a list
`cmd` (CPython: `args = [unix_shell, "-c"] + args`): the child argv is
`/bin/sh -c cmd[0] cmd[1] ...`. -/
def posixShellArgv (cmd : List String) : List String :=
  "/bin/sh" :: "-c" :: cmd

/-- The script the shell interprets in that call: only `cmd[0]`; the
remaining elements become the shell's own positional parameters. -/
def posixShellScript (cmd : List String) : String := cmd.headI

/-! ### Helper lemmas -/

theorem data_append (s t : String) : (s ++ t).data = s.data ++ t.data := rfl

theorem data_mk (l : List Char) : (String.mk l).data = l := rfl

theorem string_ext {s t : String} (h : s.data = t.data) : s = t := by
  cases s
  cases t
  exact congrArg String.mk h

theorem splitChar_ne_nil (c : Char) (l : List Char) : splitChar c l ≠ [] := by
  cases l with
  | nil => simp [splitChar]
  | cons x xs =>
    simp only [splitChar]
    split <;> simp

theorem splitChar_eq_headI_cons_tail (c : Char) (l : List Char) :
    splitChar c l = (splitChar c l).headI :: (splitChar c l).tail := by
  rcases h : splitChar c l with _ | ⟨a, as⟩
  · exact absurd h (splitChar_ne_nil c l)
  · simp

theorem splitChar_append_nosep (c : Char) (l m : List Char) (hl : c ∉ l) :
    splitChar c (l ++ m) = (l ++ (splitChar c m).headI) :: (splitChar c m).tail := by
  induction l with
  | nil => simpa using splitChar_eq_headI_cons_tail c m
  | cons x xs ih =>
    have hx : ¬(x = c) := fun h => hl (h ▸ List.mem_cons_self x xs)
    have hxs : c ∉ xs := fun h => hl (List.mem_cons_of_mem x h)
    simp only [List.cons_append, splitChar, if_neg hx, List.append_eq]
    rw [ih hxs]
    simp

theorem splitChar_append_sep (c : Char) (l m : List Char) (hl : c ∉ l) :
    splitChar c (l ++ c :: m) = l :: splitChar c m := by
  rw [splitChar_append_nosep c l (c :: m) hl]
  simp [splitChar]

theorem splitChar_nosep (c : Char) (l : List Char) (hl : c ∉ l) :
    splitChar c l = [l] := by
  have h := splitChar_append_nosep c l [] hl
  simpa [splitChar] using h

theorem pySplit_headI (c : Char) (s : String) :
    (pySplit c s).headI = String.mk (splitChar c s.data).headI := by
  unfold pySplit
  rcases h : splitChar c s.data with _ | ⟨a, as⟩
  · exact absurd h (splitChar_ne_nil c s.data)
  · simp

theorem map_id_of_fixed (f : Char → Char) (l : List Char) (hf : ∀ c ∈ l, f c = c) :
    l.map f = l := by
  induction l with
  | nil => simp
  | cons x xs ih =>
    simp only [List.map_cons, hf x (List.mem_cons_self x xs)]
    rw [ih fun c hc => hf c (List.mem_cons_of_mem x hc)]

theorem noDot_versionWithUnderscore (v : String) :
    '.' ∉ (versionWithUnderscore v).data := by
  unfold versionWithUnderscore pyReplaceChar
  intro h
  simp only [data_mk, List.mem_map] at h
  obtain ⟨a, _, ha⟩ := h
  by_cases h2 : a = '.'
  · rw [if_pos h2] at ha
    exact absurd ha (by decide)
  · rw [if_neg h2] at ha
    exact h2 ha

/-! ### Claim theorems -/

/-- Claim C1: for every version string `V`, `metainfo` derives the archive
name as `boost_` + (`V + ".0"` with dots replaced by underscores) +
`.tar.gz`, and the URL as the fixed host + `/release/` + `V + ".0"` +
`/source/` + archive name; dots are replaced only in the filename
portion and kept in the path portion, so for `V = "1.76"` the URL is
`https://boostorg.jfrog.io/artifactory/main/release/1.76.0/source/boost_1_76_0.tar.gz`. -/
theorem c1_url_derivation :
    (∀ (os : OSName) (v td : String),
        archiveName v = "boost_" ++ pyReplaceChar '.' '_' (v ++ ".0") ++ ".tar.gz"
        ∧ (metainfo os v td).url
          = "https://boostorg.jfrog.io/artifactory/main" ++ "/release/" ++ (v ++ ".0")
            ++ "/source/" ++ archiveName v)
    ∧ (metainfo .posix "1.76" "/tmp").url
      = "https://boostorg.jfrog.io/artifactory/main/release/1.76.0/source/boost_1_76_0.tar.gz" := by
  refine ⟨fun os v td => ⟨rfl, rfl⟩, by decide⟩

/-- Claim C9: metadata resolution is total: for every version string,
well-formed or not, the pipeline completes the metainfo stage and always
reaches the fetch stage (a malformed version can only fail there). -/
theorem c9_metainfo_total (os : OSName) (w : World) (v : String) (p : Option String)
    (td : String) :
    [Step.metainfoStep, Step.downloadStep] <+: (process os w v p td).steps := by
  rcases h1 : w.downloadResult with e | u <;> simp only [process, h1]
  · exact ⟨[], rfl⟩
  · rcases h2 : w.extractResult with e | u2 <;> simp only [h2]
    · exact ⟨[Step.extractStep], rfl⟩
    · rcases h3 : runOutcome (bootstrapRun os (getPrefixArg os p (metainfo os v td).version)
          (extract os td (metainfo os v td).fileName)) w.bootstrapExit with e | u3 <;>
        simp only [h3]
      · exact ⟨[Step.extractStep, Step.bootstrapStep], rfl⟩
      · rcases h4 : runOutcome (b2Run os (getPrefixArg os p (metainfo os v td).version)
            (extract os td (metainfo os v td).fileName)) w.b2Exit with e | u4 <;>
          simp only [h4]
        · exact ⟨[Step.extractStep, Step.bootstrapStep, Step.b2Step], rfl⟩
        · exact ⟨[Step.extractStep, Step.bootstrapStep, Step.b2Step], rfl⟩

/-- Claim C10: an explicitly supplied empty install path is treated like
an absent path (`if not path:` in `get_prefix` is true for both), giving
the platform default prefix rather than `--prefix=.`. -/
theorem c10_empty_path_default :
    (∀ (os : OSName) (v : String), getPrefixArg os (some "") v = getPrefixArg os none v)
    ∧ getPrefixArg .posix (some "") (versionWithDots "1.76")
        = "--prefix=/usr/local/boost_1.76.0"
    ∧ getPrefixArg .nt (some "") (versionWithDots "1.76")
        = "--prefix=C:\\boost\\boost_1.76.0" := by
  refine ⟨fun os v => rfl, by decide, by decide⟩

/-- Claim C8 counterexample: two runs with the same version string, the
same (absent) path argument and the same OS, but different temp-directory
settings (`tempfile.gettempdir()` reads `TMPDIR` from the environment),
produce different local destination paths — refuting the claim that no
input beyond version, path and OS identity influences the derived
values. -/
theorem c8_counterexample :
    (metainfo .posix "1.76" "/tmp").fileName ≠ (metainfo .posix "1.76" "/var/tmp").fileName := by
  decide

/-- Claim C8 amended: every derived value is a pure function of the
version string, the path argument, the OS identity and the temp
directory; the resolved version and the URL do not depend on the temp
directory, while the destination path (and hence the extraction
directory) is determined by the temp directory together with the
version. -/
theorem c8_amended_determinism (os : OSName) (v td1 td2 : String) :
    (metainfo os v td1).version = (metainfo os v td2).version
    ∧ (metainfo os v td1).url = (metainfo os v td2).url
    ∧ (metainfo os v td1).fileName = osJoin os td1 (archiveName v)
    ∧ extract os td1 (metainfo os v td1).fileName
        = extract os td1 (osJoin os td1 (archiveName v)) :=
  ⟨rfl, rfl, rfl, rfl⟩

/-- Claim C4: exit-status checking differs between platform branches: on
the non-Windows path a nonzero `b2` exit raises an error that aborts the
pipeline, while a nonzero `bootstrap` exit is not checked and `b2` is
invoked anyway; on the Windows path neither stage's exit status is
checked, so the run completes normally whatever the exits are. -/
theorem c4_exit_status_checking :
    (∀ (w : World) (v : String) (p : Option String) (td : String),
        w.downloadResult = Except.ok () → w.extractResult = Except.ok () →
        w.b2Exit ≠ 0 →
        (process .posix w v p td).result = Except.error "CalledProcessError")
    ∧ (∀ (w : World) (v : String) (p : Option String) (td : String),
        w.downloadResult = Except.ok () → w.extractResult = Except.ok () →
        w.bootstrapExit ≠ 0 →
        Step.b2Step ∈ (process .posix w v p td).steps)
    ∧ (∀ (w : World) (v : String) (p : Option String) (td : String),
        w.downloadResult = Except.ok () → w.extractResult = Except.ok () →
        (process .nt w v p td).result = Except.ok ()) := by
  refine ⟨?_, ?_, ?_⟩
  · intro w v p td h1 h2 h3
    simp [process, h1, h2, runOutcome, bootstrapRun, b2Run, h3]
  · intro w v p td h1 h2 _
    simp only [process, h1, h2]
    rcases h4 : runOutcome (b2Run .posix (getPrefixArg .posix p (metainfo .posix v td).version)
        (extract .posix td (metainfo .posix v td).fileName)) w.b2Exit with e | u <;>
      simp [runOutcome, bootstrapRun, h4]
  · intro w v p td h1 h2
    simp [process, h1, h2, runOutcome, bootstrapRun, b2Run]

/-- Witness for C4 at concrete inputs: on POSIX a failing `b2` (exit 1)
aborts with `CalledProcessError`; on POSIX a failing `bootstrap`
(exit 1) still reaches the `b2` stage; on Windows both stages failing
(exit 1) still yields a normal completion. -/
theorem c4_exit_status_checking_witness :
    (process .posix ⟨Except.ok (), Except.ok (), 0, 1⟩ "1.76" none "/tmp").result
      = Except.error "CalledProcessError"
    ∧ Step.b2Step ∈ (process .posix ⟨Except.ok (), Except.ok (), 1, 0⟩ "1.76" none "/tmp").steps
    ∧ (process .nt ⟨Except.ok (), Except.ok (), 1, 1⟩ "1.76" none "/tmp").result
      = Except.ok () :=
  ⟨c4_exit_status_checking.1 ⟨Except.ok (), Except.ok (), 0, 1⟩ "1.76" none "/tmp"
      rfl rfl (by decide),
   c4_exit_status_checking.2.1 ⟨Except.ok (), Except.ok (), 1, 0⟩ "1.76" none "/tmp"
      rfl rfl (by decide),
   c4_exit_status_checking.2.2 ⟨Except.ok (), Except.ok (), 1, 1⟩ "1.76" none "/tmp"
      rfl rfl⟩

/-- Claim C5: when the fetch raises a connection error, the run stops
after the download stage: no extraction, bootstrap or b2 stage executes,
no subprocess is invoked, and the top-level handler prints an error
message. -/
theorem c5_fetch_failure_aborts (os : OSName) (w : World) (v : String) (p : Option String)
    (td : String) (e : String) (h : w.downloadResult = Except.error e) :
    (process os w v p td).steps = [Step.metainfoStep, Step.downloadStep]
    ∧ (process os w v p td).calls = []
    ∧ Step.extractStep ∉ (process os w v p td).steps
    ∧ Step.bootstrapStep ∉ (process os w v p td).steps
    ∧ Step.b2Step ∉ (process os w v p td).steps
    ∧ mainErrorLine os w v p td = some ("Error: " ++ e) := by
  have hs : (process os w v p td).steps = [Step.metainfoStep, Step.downloadStep] := by
    simp [process, h]
  refine ⟨hs, by simp [process, h], ?_, ?_, ?_, by simp [mainErrorLine, process, h]⟩
  · rw [hs]
    decide
  · rw [hs]
    decide
  · rw [hs]
    decide

/-- Witness for C5 at a concrete input: a refused connection during the
fetch of version 1.76 on POSIX. -/
theorem c5_fetch_failure_aborts_witness :
    (process .posix ⟨Except.error "urlopen error Connection refused", Except.ok (), 0, 0⟩
        "1.76" none "/tmp").steps = [Step.metainfoStep, Step.downloadStep]
    ∧ (process .posix ⟨Except.error "urlopen error Connection refused", Except.ok (), 0, 0⟩
        "1.76" none "/tmp").calls = []
    ∧ Step.extractStep ∉ (process .posix ⟨Except.error "urlopen error Connection refused",
        Except.ok (), 0, 0⟩ "1.76" none "/tmp").steps
    ∧ Step.bootstrapStep ∉ (process .posix ⟨Except.error "urlopen error Connection refused",
        Except.ok (), 0, 0⟩ "1.76" none "/tmp").steps
    ∧ Step.b2Step ∉ (process .posix ⟨Except.error "urlopen error Connection refused",
        Except.ok (), 0, 0⟩ "1.76" none "/tmp").steps
    ∧ mainErrorLine .posix ⟨Except.error "urlopen error Connection refused", Except.ok (), 0, 0⟩
        "1.76" none "/tmp" = some ("Error: " ++ "urlopen error Connection refused") :=
  c5_fetch_failure_aborts .posix
    ⟨Except.error "urlopen error Connection refused", Except.ok (), 0, 0⟩
    "1.76" none "/tmp" "urlopen error Connection refused" rfl

/-- Claim C6 (code bug): on POSIX with version 1.76 and no path, the
bootstrap invocation is `subprocess.run(['./bootstrap.sh', prefix_arg],
shell=True, ...)`.  CPython's POSIX `shell=True` semantics turn a list
into `/bin/sh -c cmd[0] cmd[1] ...`, so the shell interprets only
`./bootstrap.sh` as its script and the prefix argument becomes a shell
positional parameter: `bootstrap.sh` itself is executed without the
prefix argument, contradicting the intended (and printed) command
`./bootstrap.sh --prefix=/usr/local/boost_1.76.0`. -/
theorem c6_bootstrap_shell_list_bug :
    (bootstrapRun .posix (getPrefixArg .posix none (versionWithDots "1.76"))
        "/tmp/boost_1_76_0").shell = true
    ∧ (bootstrapRun .posix (getPrefixArg .posix none (versionWithDots "1.76"))
        "/tmp/boost_1_76_0").cmd
      = ["./bootstrap.sh", "--prefix=/usr/local/boost_1.76.0"]
    ∧ posixShellArgv ["./bootstrap.sh", "--prefix=/usr/local/boost_1.76.0"]
      = ["/bin/sh", "-c", "./bootstrap.sh", "--prefix=/usr/local/boost_1.76.0"]
    ∧ posixShellScript ["./bootstrap.sh", "--prefix=/usr/local/boost_1.76.0"]
      = "./bootstrap.sh"
    ∧ ¬ ("--prefix=/usr/local/boost_1.76.0".data <:+: "./bootstrap.sh".data) := by
  refine ⟨rfl, by decide, rfl, rfl, by decide⟩

/-- Claim C7: an explicitly supplied non-empty install path yields the
prefix argument `--prefix=` + the normalized (separator-collapsing
`os.path.normpath`) form of that path, and that same string is the one
handed to both the bootstrap invocation and the b2 invocation. -/
theorem c7_explicit_path_shared_prefix_arg (os : OSName) (w : World) (v p td : String)
    (hp : p ≠ "") (h1 : w.downloadResult = Except.ok ())
    (h2 : w.extractResult = Except.ok ()) :
    getPrefixArg os (some p) (versionWithDots v) = "--prefix=" ++ osNormpath os p
    ∧ (process os w v (some p) td).calls
        = [bootstrapRun os ("--prefix=" ++ osNormpath os p)
             (extract os td (metainfo os v td).fileName),
           b2Run os ("--prefix=" ++ osNormpath os p)
             (extract os td (metainfo os v td).fileName)]
    ∧ ("--prefix=" ++ osNormpath os p)
        ∈ (bootstrapRun os ("--prefix=" ++ osNormpath os p)
             (extract os td (metainfo os v td).fileName)).cmd
    ∧ ("--prefix=" ++ osNormpath os p)
        ∈ (b2Run os ("--prefix=" ++ osNormpath os p)
             (extract os td (metainfo os v td).fileName)).cmd := by
  have hpa : ∀ ver : String, getPrefixArg os (some p) ver = "--prefix=" ++ osNormpath os p := by
    intro ver
    simp [getPrefixArg, hp]
  refine ⟨hpa _, ?_, ?_, ?_⟩
  · cases os with
    | posix =>
      simp only [process, h1, h2, hpa]
      rcases h4 : runOutcome (b2Run .posix ("--prefix=" ++ osNormpath .posix p)
          (extract .posix td (metainfo .posix v (td : String)).fileName)) w.b2Exit with e | u <;>
        simp [runOutcome, bootstrapRun, h4]
    | nt =>
      simp only [process, h1, h2, hpa]
      rcases h4 : runOutcome (b2Run .nt ("--prefix=" ++ osNormpath .nt p)
          (extract .nt td (metainfo .nt v (td : String)).fileName)) w.b2Exit with e | u <;>
        simp [runOutcome, bootstrapRun, h4]
  · cases os <;> simp [bootstrapRun]
  · cases os <;> simp [b2Run]

/-- Witness for C7 at a concrete input: explicit path `/opt//boost` with
a doubled separator, on POSIX, with a successful fetch and extraction. -/
theorem c7_explicit_path_shared_prefix_arg_witness :
    getPrefixArg .posix (some "/opt//boost") (versionWithDots "1.76")
      = "--prefix=" ++ osNormpath .posix "/opt//boost"
    ∧ (process .posix ⟨Except.ok (), Except.ok (), 0, 0⟩ "1.76" (some "/opt//boost") "/tmp").calls
        = [bootstrapRun .posix ("--prefix=" ++ osNormpath .posix "/opt//boost")
             (extract .posix "/tmp" (metainfo .posix "1.76" "/tmp").fileName),
           b2Run .posix ("--prefix=" ++ osNormpath .posix "/opt//boost")
             (extract .posix "/tmp" (metainfo .posix "1.76" "/tmp").fileName)]
    ∧ ("--prefix=" ++ osNormpath .posix "/opt//boost")
        ∈ (bootstrapRun .posix ("--prefix=" ++ osNormpath .posix "/opt//boost")
             (extract .posix "/tmp" (metainfo .posix "1.76" "/tmp").fileName)).cmd
    ∧ ("--prefix=" ++ osNormpath .posix "/opt//boost")
        ∈ (b2Run .posix ("--prefix=" ++ osNormpath .posix "/opt//boost")
             (extract .posix "/tmp" (metainfo .posix "1.76" "/tmp").fileName)).cmd :=
  c7_explicit_path_shared_prefix_arg .posix ⟨Except.ok (), Except.ok (), 0, 0⟩
    "1.76" "/opt//boost" "/tmp" (by decide) rfl rfl

/-- Claim C2 counterexample: with temp directory `/tmp/a.b` (which
contains a `.`), the extract stage returns `/tmp/a` — the downloaded
path cut at its first dot — and not the temp directory joined with the
archive base name `boost_1_76_0`. -/
theorem c2_counterexample :
    extract .posix "/tmp/a.b" (metainfo .posix "1.76" "/tmp/a.b").fileName = "/tmp/a"
    ∧ extract .posix "/tmp/a.b" (metainfo .posix "1.76" "/tmp/a.b").fileName
        ≠ osJoin .posix "/tmp/a.b" ("boost_" ++ versionWithUnderscore "1.76") := by
  refine ⟨by decide, by decide⟩

/-- Claim C3 counterexample: the version string `a/../b` (no explicit
path, POSIX) yields the default prefix `--prefix=/usr/local/b.0` after
`normpath` resolves the `..`, and the resolved version `a/../b.0` is not
embedded in it. -/
theorem c3_counterexample :
    getPrefixArg .posix none (versionWithDots "a/../b") = "--prefix=/usr/local/b.0"
    ∧ ¬ ((versionWithDots "a/../b").data
          <:+: (getPrefixArg .posix none (versionWithDots "a/../b")).data) := by
  refine ⟨by decide, by decide⟩

/-- Claim C2 amended: the extraction directory equals the temp directory
joined with the archive base name (the file name with its `.tar.gz`
extension removed) provided the temp directory is an absolute POSIX path
containing no `.` character; for a temp directory containing a `.` the
split-at-first-dot computation returns a different path instead (see the
counterexample). -/
theorem c2_amended_extract_dir (v td : String) (h1 : td.data.head? = some '/')
    (h2 : '.' ∉ td.data) :
    extract .posix td (metainfo .posix v td).fileName
      = posixJoin td ("boost_" ++ versionWithUnderscore v)
    ∧ archiveName v = ("boost_" ++ versionWithUnderscore v) ++ ".tar.gz" := by
  refine ⟨?_, rfl⟩
  have hnoDotBase : '.' ∉ ("boost_" ++ versionWithUnderscore v).data := by
    rw [data_append]
    intro hm
    rcases List.mem_append.mp hm with hm1 | hm2
    · exact absurd hm1 (by decide)
    · exact noDot_versionWithUnderscore v hm2
  obtain ⟨rest0, htd⟩ : ∃ r, td.data = '/' :: r := by
    rcases h : td.data with _ | ⟨c, r⟩
    · rw [h] at h1
      simp at h1
    · rw [h] at h1
      simp at h1
      exact ⟨r, by rw [h1]⟩
  have hne : td ≠ "" := by
    intro h
    rw [h] at htd
    simp at htd
  have hstartBase : pyStartsWith ("boost_" ++ versionWithUnderscore v) "/" = false := rfl
  have hstartA : pyStartsWith (archiveName v) "/" = false := rfl
  have hAdata : (archiveName v).data
      = ("boost_" ++ versionWithUnderscore v).data ++ ('.' :: "tar.gz".data) := rfl
  cases hend : pyEndsWith td "/" with
  | false =>
    have hf : posixJoin td (archiveName v) = td ++ "/" ++ archiveName v := by
      simp [posixJoin, hstartA, hne, hend]
    have hfd : (td ++ "/" ++ archiveName v).data
        = ((td.data ++ ['/']) ++ ("boost_" ++ versionWithUnderscore v).data)
          ++ ('.' :: "tar.gz".data) := by
      rw [data_append, data_append, hAdata]
      simp [List.append_assoc]
    have hsplit : splitChar '.' ((td ++ "/" ++ archiveName v).data)
        = ((td.data ++ ['/']) ++ ("boost_" ++ versionWithUnderscore v).data)
          :: splitChar '.' "tar.gz".data := by
      rw [hfd]
      refine splitChar_append_sep '.' _ _ ?_
      intro hm
      rcases List.mem_append.mp hm with hm1 | hm2
      · rcases List.mem_append.mp hm1 with hm3 | hm4
        · exact h2 hm3
        · simp at hm4
      · exact hnoDotBase hm2
    have hdir : (pySplit '.' (td ++ "/" ++ archiveName v)).headI
        = String.mk ((td.data ++ ['/']) ++ ("boost_" ++ versionWithUnderscore v).data) := by
      rw [pySplit_headI, hsplit]
      rfl
    have hstartDir : pyStartsWith (String.mk ((td.data ++ ['/'])
        ++ ("boost_" ++ versionWithUnderscore v).data)) "/" = true := by
      unfold pyStartsWith
      rw [data_mk, htd]
      simp [isPre]
    show posixJoin td ((pySplit '.' (posixJoin td (archiveName v))).headI)
        = posixJoin td ("boost_" ++ versionWithUnderscore v)
    rw [hf, hdir]
    simp only [posixJoin, hstartDir, hstartBase, hne, hend]
    · rfl
  | true =>
    have hf : posixJoin td (archiveName v) = td ++ archiveName v := by
      simp [posixJoin, hstartA, hne, hend]
    have hfd : (td ++ archiveName v).data
        = (td.data ++ ("boost_" ++ versionWithUnderscore v).data)
          ++ ('.' :: "tar.gz".data) := by
      rw [data_append, hAdata]
      simp [List.append_assoc]
    have hsplit : splitChar '.' ((td ++ archiveName v).data)
        = (td.data ++ ("boost_" ++ versionWithUnderscore v).data)
          :: splitChar '.' "tar.gz".data := by
      rw [hfd]
      refine splitChar_append_sep '.' _ _ ?_
      intro hm
      rcases List.mem_append.mp hm with hm1 | hm2
      · exact h2 hm1
      · exact hnoDotBase hm2
    have hdir : (pySplit '.' (td ++ archiveName v)).headI
        = String.mk (td.data ++ ("boost_" ++ versionWithUnderscore v).data) := by
      rw [pySplit_headI, hsplit]
      rfl
    have hstartDir : pyStartsWith (String.mk (td.data
        ++ ("boost_" ++ versionWithUnderscore v).data)) "/" = true := by
      unfold pyStartsWith
      rw [data_mk, htd]
      simp [isPre]
    show posixJoin td ((pySplit '.' (posixJoin td (archiveName v))).headI)
        = posixJoin td ("boost_" ++ versionWithUnderscore v)
    rw [hf, hdir]
    simp only [posixJoin, hstartDir, hstartBase, hne, hend]
    · rfl

/-- Witness for C2 amended at the concrete input `td = "/tmp"`,
`v = "1.76"`. -/
theorem c2_amended_extract_dir_witness :
    extract .posix "/tmp" (metainfo .posix "1.76" "/tmp").fileName
      = posixJoin "/tmp" ("boost_" ++ versionWithUnderscore "1.76")
    ∧ archiveName "1.76" = ("boost_" ++ versionWithUnderscore "1.76") ++ ".tar.gz" :=
  c2_amended_extract_dir "1.76" "/tmp" (by decide) (by decide)

theorem posixNormpath_default_keep (v : String) (hv : '/' ∉ v.data) :
    posixNormpath ("/usr/local/boost_" ++ (v ++ ".0")) = "/usr/local/boost_" ++ (v ++ ".0") := by
  have htail : '/' ∉ ("boost_".data ++ (v.data ++ ".0".data)) := by
    intro hm
    rcases List.mem_append.mp hm with hm1 | hm2
    · exact absurd hm1 (by decide)
    · rcases List.mem_append.mp hm2 with hm3 | hm4
      · exact hv hm3
      · exact absurd hm4 (by decide)
  have hdata : ("/usr/local/boost_" ++ (v ++ ".0")).data
      = '/' :: ("usr".data ++ ('/' :: ("local".data
          ++ ('/' :: ("boost_".data ++ (v.data ++ ".0".data)))))) := rfl
  have hcons : ∀ X : List Char, splitChar '/' ('/' :: X) = [] :: splitChar '/' X := by
    intro X
    simp [splitChar]
  have hsplit : splitChar '/' (("/usr/local/boost_" ++ (v ++ ".0")).data)
      = [[], "usr".data, "local".data, "boost_".data ++ (v.data ++ ".0".data)] := by
    rw [hdata, hcons, splitChar_append_sep '/' "usr".data _ (by decide),
      splitChar_append_sep '/' "local".data _ (by decide),
      splitChar_nosep '/' _ htail]
  have hne : ("/usr/local/boost_" ++ (v ++ ".0")) ≠ "" := by
    intro h
    have h3 := congrArg String.data h
    rw [hdata] at h3
    simp at h3
  simp only [posixNormpath, hsplit]
  rw [if_neg hne]
  rfl


theorem ntNormpath_default_keep (v : String) (hv1 : '/' ∉ v.data) (hv2 : '\\' ∉ v.data) :
    ntNormpath ("C:\\boost\\boost_" ++ (v ++ ".0")) = "C:\\boost\\boost_" ++ (v ++ ".0") := by
  have hdata : ("C:\\boost\\boost_" ++ (v ++ ".0")).data
      = "C:\\boost\\boost_".data ++ (v.data ++ ".0".data) := rfl
  have hmap : ("C:\\boost\\boost_" ++ (v ++ ".0")).data.map
        (fun c => if c = '/' then '\\' else c)
      = ("C:\\boost\\boost_" ++ (v ++ ".0")).data := by
    apply map_id_of_fixed
    intro c hc
    rw [hdata] at hc
    have hne : ¬(c = '/') := by
      rcases List.mem_append.mp hc with hm1 | hm2
      · intro he
        rw [he] at hm1
        exact absurd hm1 (by decide)
      · rcases List.mem_append.mp hm2 with hm3 | hm4
        · intro he
          rw [he] at hm3
          exact hv1 hm3
        · intro he
          rw [he] at hm4
          exact absurd hm4 (by decide)
    rw [if_neg hne]
  have htail2 : '\\' ∉ ("boost_".data ++ (v.data ++ ".0".data)) := by
    intro hm
    rcases List.mem_append.mp hm with hm1 | hm2
    · exact absurd hm1 (by decide)
    · rcases List.mem_append.mp hm2 with hm3 | hm4
      · exact hv2 hm3
      · exact absurd hm4 (by decide)
  have hsd : ntSplitdrive (String.mk (("C:\\boost\\boost_" ++ (v ++ ".0")).data))
      = (String.mk ['C', ':'],
         String.mk ('\\' :: ("boost".data ++ ('\\' :: ("boost_".data
           ++ (v.data ++ ".0".data)))))) := rfl
  have hsw : pyStartsWith (String.mk ('\\' :: ("boost".data ++ ('\\' :: ("boost_".data
      ++ (v.data ++ ".0".data)))))) "\\" = true := rfl
  have hdw : List.dropWhile (fun x => decide (x = '\\'))
      ('\\' :: ("boost".data ++ ('\\' :: ("boost_".data ++ (v.data ++ ".0".data)))))
      = "boost".data ++ ('\\' :: ("boost_".data ++ (v.data ++ ".0".data))) := rfl
  have hpe : pyEndsWith (String.mk ['C', ':'] ++ "\\") "\\" = true := rfl
  have hsp : splitChar '\\' ("boost".data ++ ('\\' :: ("boost_".data ++ (v.data ++ ".0".data))))
      = ["boost".data, "boost_".data ++ (v.data ++ ".0".data)] := by
    rw [splitChar_append_sep '\\' _ _ (by decide), splitChar_nosep '\\' _ htail2]
  simp only [ntNormpath, hmap, hsd, data_mk, hsw, hpe, hdw, hsp, if_true]
  rfl

/-- Claim C3 amended: for every version string containing no path
separator, the default prefix argument embeds the resolved version
`V + ".0"`: on POSIX it equals `--prefix=/usr/local/boost_` + `V.0`, on
Windows `--prefix=C:\boost\boost_` + `V.0` (for a version string
containing a separator, `normpath` can rewrite the default path so that
the resolved version no longer appears — see the counterexample). -/
theorem c3_amended_default_prefix_embeds_version :
    (∀ v : String, '/' ∉ v.data →
        getPrefixArg .posix none (versionWithDots v)
          = "--prefix=/usr/local/boost_" ++ v ++ ".0")
    ∧ (∀ v : String, '/' ∉ v.data → '\\' ∉ v.data →
        getPrefixArg .nt none (versionWithDots v)
          = "--prefix=C:\\boost\\boost_" ++ v ++ ".0") := by
  constructor
  · intro v hv
    show "--prefix=" ++ posixNormpath ("/usr/local/boost_" ++ (v ++ ".0"))
        = "--prefix=/usr/local/boost_" ++ v ++ ".0"
    rw [posixNormpath_default_keep v hv]
    exact string_ext rfl
  · intro v hv1 hv2
    show "--prefix=" ++ ntNormpath ("C:\\boost\\boost_" ++ (v ++ ".0"))
        = "--prefix=C:\\boost\\boost_" ++ v ++ ".0"
    rw [ntNormpath_default_keep v hv1 hv2]
    exact string_ext rfl

/-- Witness for C3 amended at `v = "1.76"`: the concrete default
prefixes of the claim on both platforms. -/
theorem c3_amended_default_prefix_embeds_version_witness :
    getPrefixArg .posix none (versionWithDots "1.76") = "--prefix=/usr/local/boost_1.76.0"
    ∧ getPrefixArg .nt none (versionWithDots "1.76") = "--prefix=C:\\boost\\boost_1.76.0" :=
  ⟨c3_amended_default_prefix_embeds_version.1 "1.76" (by decide),
   c3_amended_default_prefix_embeds_version.2 "1.76" (by decide) (by decide)⟩

end BoostInstall
